import Mathlib

set_option autoImplicit false

/-!
Shallow embedding of the watch / debounce engine of the minio-backup-sidecar
repository (pkg/fs/watcher.go, pkg/fs/config.go, the fs utility file, and
pkg/minio/client.go), together with theorems settling the frozen claims
about it.  Names follow the Go source where Lean allows.
-/

namespace MBS

/-- pkg/fs/config.go, type Events: which event kinds a spec watches. -/
structure Events where
  Create : Bool
  Write : Bool
  Remove : Bool
deriving DecidableEq

/-- pkg/config Destination: object name, prefix path and content type. -/
structure Destination where
  Name : String
  Path : String
  Type' : String
deriving DecidableEq

/-- pkg/fs/config.go, type fsPath (the watch spec). -/
structure fsPath where
  DeleteOnSuccess : Bool
  Watch : Bool
  Recursive : Bool
  Path : String
  Events : Events
  Destination : Destination
deriving DecidableEq

/-- fsnotify.Event: a path name plus the operation flags the program
    inspects (Create, Write, Remove).  A single low-level notification may
    carry several flags. -/
structure Event where
  Name : String
  create : Bool
  write : Bool
  remove : Bool
deriving DecidableEq

/-- The two timer callbacks bound in setTimer: callUpload and callDelete. -/
inductive ActionKind where
  | upload
  | delete
deriving DecidableEq

/-- A live entry of the watcher's timers map: the absolute time at which the
    timer will fire and the action bound into its AfterFunc callback
    (timer_func together with the captured event name, watcher.go setTimer). -/
structure PendingTimer where
  deadline : Nat
  kind : ActionKind
  path : String
deriving DecidableEq

/-- State of one watcher: the timers map (an association list keyed by
    timer_id, unique keys being an invariant proved below), the log of
    dispatched actions (fire time, kind, path) in dispatch order, the list of
    directories passed to the fsnotify handle's Add (watcher.addDir), and
    whether the watcher's context has been cancelled. -/
structure WState where
  timers : List (String × PendingTimer)
  dispatched : List (Nat × ActionKind × String)
  registered : List String
  cancelled : Bool
deriving DecidableEq

/-- The state right after startNewWatcher builds the watcher struct: an empty
    timers map, nothing dispatched, the root registered. -/
def initState (root : String) : WState :=
  { timers := [], dispatched := [], registered := [root], cancelled := false }

/-- Lookup in the timers map (Go map read w.timers[timer_id]). -/
def lookupTimer (k : String) : List (String × PendingTimer) → Option PendingTimer
  | [] => none
  | (k', t) :: rest => if k' = k then some t else lookupTimer k rest

/-- In-place deadline update of the entry with key k (the effect of
    t.Reset(w.wait) on the stored timer). -/
def resetTimer (k : String) (d : Nat) :
    List (String × PendingTimer) → List (String × PendingTimer)
  | [] => []
  | (k', t) :: rest =>
    if k' = k then (k', { t with deadline := d }) :: rest
    else (k', t) :: resetTimer k d rest

/-- Removal of the entry with key k (Go delete(w.timers, timer_id)). -/
def eraseTimer (k : String) :
    List (String × PendingTimer) → List (String × PendingTimer)
  | [] => []
  | (k', t) :: rest =>
    if k' = k then eraseTimer k rest
    else (k', t) :: eraseTimer k rest

/-- The switch at the top of setTimer (watcher.go lines 115-125): pick the
    callback and timer id, testing Create first, then Remove, then Write.
    Returns none when the event carries none of the three flags; in Go that
    path leaves timer_func nil, but the event loop only calls setTimer with
    at least one flag present. -/
def timerSelect (e : Event) : Option (ActionKind × String) :=
  if e.create then some (ActionKind.upload, "upload-" ++ e.Name)
  else if e.remove then some (ActionKind.delete, "delete-" ++ e.Name)
  else if e.write then some (ActionKind.upload, "upload-" ++ e.Name)
  else none

/-- watcher.setTimer (watcher.go lines 109-153): look the timer id up; on a
    miss create a stopped timer bound to (timer_func, e.Name) and store it;
    in either case Reset arms it to fire wait after now. -/
def setTimer (wait now : Nat) (e : Event) (s : WState) : WState :=
  match timerSelect e with
  | none => s
  | some (kind, id) =>
    match lookupTimer id s.timers with
    | none =>
      { s with timers := s.timers ++ [(id, ⟨now + wait, kind, e.Name⟩)] }
    | some _ =>
      { s with timers := resetTimer id (now + wait) s.timers }

/-- The AfterFunc callback of one timer (watcher.go lines 136-143): run the
    bound action, then delete the map entry.  The dispatch is logged at the
    timer's deadline, the time at which it fires. -/
def fireTimer (id : String) (s : WState) : WState :=
  match lookupTimer id s.timers with
  | none => s
  | some t =>
    { s with
      dispatched := s.dispatched ++ [(t.deadline, t.kind, t.path)]
      timers := eraseTimer id s.timers }

/-- Fire every timer whose deadline has been reached by time now, in table
    order: each such callback logs its action at its own deadline and its
    entry is removed, exactly as fireTimer does for one entry. -/
def fireDue (now : Nat) (s : WState) : WState :=
  { s with
    timers := s.timers.filter (fun kt => decide (now < kt.2.deadline))
    dispatched := s.dispatched ++
      (s.timers.filter (fun kt => decide (kt.2.deadline ≤ now))).map
        (fun kt => (kt.2.deadline, kt.2.kind, kt.2.path)) }

/-- watcher.addDir (watcher.go lines 203-212): pass each path to the fsnotify
    handle's Add; a failing Add is only logged and skipped, so the model
    records every path handed to Add. -/
def addDir (paths : List String) (s : WState) : WState :=
  { s with registered := s.registered ++ paths }

/-- watcher.checkWatcher (watcher.go lines 214-224): cancel the watcher's
    context when the handle's watch list is empty.  The model equates the
    watch list with the registered list (Add failures and kernel-side
    removals only shrink it, which no claim here depends on). -/
def checkWatcher (s : WState) : WState :=
  if s.registered.isEmpty then { s with cancelled := true } else s

/-- One iteration of the event branch of startWatchLoop (watcher.go lines
    169-189).  isDir is the outcome of the checkDir stat on event.Name made
    in the Create case.  The switch runs its first matching case only. -/
def loopStep (p : fsPath) (wait : Nat) (isDir : Bool) (now : Nat)
    (e : Event) (s : WState) : WState :=
  if e.create then
    if isDir then addDir [e.Name] s
    else if p.Events.Create then setTimer wait now e s
    else s
  else if e.write then
    if p.Events.Write then setTimer wait now e s else s
  else if e.remove then
    checkWatcher (if p.Events.Remove then setTimer wait now e s else s)
  else s

/-- One delivered low-level notification: its arrival time, whether
    event.Name stats as a directory at that moment, and the event itself. -/
structure Arrival where
  time : Nat
  isDir : Bool
  event : Event
deriving DecidableEq

/-- Run the event loop over a trace of arrivals, firing the timers that come
    due before each arrival is handled. -/
def runEvents (p : fsPath) (wait : Nat) (s : WState) : List Arrival → WState
  | [] => s
  | a :: rest => runEvents p wait (loopStep p wait a.isDir a.time a.event (fireDue a.time s)) rest

/-- A Write-only notification for path f arriving at time t. -/
def writeArrival (f : String) (t : Nat) : Arrival :=
  ⟨t, false, ⟨f, false, true, false⟩⟩

/-- The keys currently present in a watcher's timers map. -/
def timerKeys (s : WState) : List String := s.timers.map Prod.fst

/-- The transitions that touch a watcher's debounce table: the handling of
    one delivered low-level event (loopStep covers every setTimer call site)
    or the firing of one timer's callback. -/
inductive Step (p : fsPath) (wait : Nat) : WState → WState → Prop where
  | event (isDir : Bool) (now : Nat) (e : Event) (s : WState) :
      Step p wait s (loopStep p wait isDir now e s)
  | fire (id : String) (s : WState) :
      Step p wait s (fireTimer id s)

/-- The states of one watcher reachable from its initial state. -/
inductive Reachable (p : fsPath) (wait : Nat) : WState → Prop where
  | init (root : String) : Reachable p wait (initState root)
  | step (s s' : WState) : Reachable p wait s → Step p wait s s' → Reachable p wait s'

/-- A modelled filesystem subtree: a plain file, or a directory with a
    readability flag (os.ReadDir succeeds on it iff it is readable) and its
    child entries in ReadDir order. -/
inductive Entry where
  | file (name : String)
  | dir (name : String) (readable : Bool) (children : List Entry)

/-- Go path.Join on two elements: empty elements are dropped and the rest
    joined with a slash.  (Go additionally runs the lexical Clean over the
    result; no claim depends on that cleanup and the paths this program
    builds are already clean.) -/
def pathJoin (a b : String) : String :=
  if a = "" then b else if b = "" then a else a ++ "/" ++ b

mutual

/-- recursiveDirList (fs utility file, lines 44-72) run on the modelled
    subtree e mounted at path p.  The Go pair (*[]string, error) is modelled
    as an Option list (none for a nil slice pointer) paired with an optional
    error message.  A file fails the initial checkDir stat; an unreadable
    directory fails the ReadDir call. -/
def recursiveDirList (p : String) : Entry → Option (List String) × Option String
  | .file _ => (none, some ("not a directory: " ++ p))
  | .dir _ readable children =>
    if readable then rdlChildren p children [p]
    else (none, some ("unable to process dir " ++ p))

/-- The loop over the ReadDir entries of p (lines 59-69): recurse into each
    child directory; on a child error, return the directories accumulated so
    far together with that error; otherwise append the child's list.  The
    (none, none) child case never occurs (recursiveDirList always pairs a
    none list with an error) and is mapped to skipping the child. -/
def rdlChildren (p : String) :
    List Entry → List String → Option (List String) × Option String
  | [], dirs => (some dirs, none)
  | .file _ :: rest, dirs => rdlChildren p rest dirs
  | .dir n r cs :: rest, dirs =>
    match recursiveDirList (pathJoin p n) (.dir n r cs) with
    | (_, some err) => (some dirs, some err)
    | (some d, none) => rdlChildren p rest (dirs ++ d)
    | (none, none) => rdlChildren p rest dirs

end

/-- The initial watch set computed by startNewWatcher (watcher.go lines
    70-87): just the root unless Recursive; when Recursive, the list returned
    by recursiveDirList whenever it is non-nil (even alongside an error),
    with the root kept as fallback for a nil list. -/
def initWatchPaths (p : fsPath) (fs : Entry) : List String :=
  if p.Recursive then
    match recursiveDirList p.Path fs with
    | (some dirs, _) => dirs
    | (none, _) => [p.Path]
  else [p.Path]

/-- Operations the watcher code performs on the fsnotify handle value
    returned by fsnotify.NewWatcher. -/
inductive HandleOp where
  | selectEvents
  | add (path : String)
deriving DecidableEq

/-- Startup outcome of startNewWatcher: the handle (none when NewWatcher
    failed — Go then returns a nil pointer, which the code stores anyway),
    the operations performed on that handle, whether the watcher's context
    was cancelled during startup, and the initially registered paths. -/
structure StartOutcome where
  handle : Option Unit
  handleOps : List HandleOp
  cancelled : Bool
  registered : List String
deriving DecidableEq

/-- startNewWatcher (watcher.go lines 43-89): none when Watch is false (the
    guard logs and returns; no watcher is started).  Otherwise, on a
    NewWatcher failure the code logs and cancels the context — and then keeps
    going with the nil handle: startWatcher's loop immediately selects on
    _watcher.Events, and addDir calls _watcher.Add for every initial watch
    path. -/
def startNewWatcher (p : fsPath) (newWatcherOk : Bool) (fs : Entry) :
    Option StartOutcome :=
  if !p.Watch then none
  else
    let handle : Option Unit := if newWatcherOk then some () else none
    let paths := initWatchPaths p fs
    some { handle := handle
           handleOps := HandleOp.selectEvents :: paths.map HandleOp.add
           cancelled := !newWatcherOk
           registered := paths }

/-- In Go, a field access or method call through a nil pointer panics the
    process: the startup panics iff the stored handle is nil and at least one
    operation is performed on it. -/
def StartOutcome.panics (o : StartOutcome) : Bool :=
  o.handle.isNone && !o.handleOps.isEmpty

/-- Observable outcome of one callUpload run on a file that exists. -/
structure UploadOutcome where
  removeAttempted : Bool
  fileExists : Bool
  escalated : Bool
deriving DecidableEq

/-- callUpload (fs utility file, lines 102-115), as a function of the
    collaborator outcomes: uploadOk is whether UploadFileWithDestination
    returned nil, removeOk whether os.Remove would succeed.  fileExists is
    whether the watched file still exists afterwards, given that it existed
    before.  callUpload returns nothing in Go, so no error ever escalates to
    its caller. -/
def callUpload (p : fsPath) (uploadOk removeOk : Bool) : UploadOutcome :=
  if !uploadOk then ⟨false, true, false⟩
  else if p.DeleteOnSuccess then
    if removeOk then ⟨true, false, false⟩ else ⟨true, true, false⟩
  else ⟨false, true, false⟩

/-- The per-path branch of Config.validate (config.go lines 199-217), with
    dirOk the outcome of the checkDir stat on the Path (true iff it stats as
    a directory).  Watched paths are checked as is; unwatched paths are
    normalized: Recursive and DeleteOnSuccess are forced false and the event
    mask is cleared. -/
def validatePathChecks (dirOk : String → Bool) (p : fsPath) : Except String fsPath :=
  if p.Watch then
    if !dirOk p.Path && p.Recursive then
      Except.error ("cannot recursively watch non-directory file: " ++ p.Path)
    else if !dirOk p.Path && p.DeleteOnSuccess then
      Except.error ("cannot use delete-on-success and watch on non-directory file: "
        ++ p.Path)
    else if !(p.Events.Create || p.Events.Write || p.Events.Remove) then
      Except.error ("cannot set watch without any events: " ++ p.Path)
    else Except.ok p
  else
    Except.ok { p with Recursive := false, DeleteOnSuccess := false,
                       Events := ⟨false, false, false⟩ }

/-- Config.validate on one fsPath: the watch/normalize phase above, then the
    delete-on-success/Remove check of lines 219-221, which thus sees the
    normalized path. -/
def validatePath (dirOk : String → Bool) (p : fsPath) : Except String fsPath :=
  match validatePathChecks dirOk p with
  | Except.error e => Except.error e
  | Except.ok q =>
    if q.DeleteOnSuccess && q.Events.Remove then
      Except.error ("cannot watch remove/delete events with delete-on-success: "
        ++ q.Path)
    else Except.ok q

/-- Config.validate over the whole path list: the first failing path's error,
    or the (normalized) list that Config.New keeps. -/
def validate (dirOk : String → Bool) : List fsPath → Except String (List fsPath)
  | [] => Except.ok []
  | p :: rest =>
    match validatePath dirOk p with
    | Except.error e => Except.error e
    | Except.ok q =>
      match validate dirOk rest with
      | Except.error e => Except.error e
      | Except.ok qs => Except.ok (q :: qs)

/-- Scan of a character list that keeps the characters seen since the last
    slash: on reaching the end, the accumulator holds the final component. -/
def pathBaseAux : List Char → List Char → List Char
  | [], acc => acc
  | c :: rest, acc => if c = '/' then pathBaseAux rest [] else pathBaseAux rest (acc ++ [c])

/-- The file part of Go path.Split: everything after the final slash. -/
def pathBase (file : String) : String := ⟨pathBaseAux file.data []⟩

/-- The object key computed by UploadFileWithDestination (client.go lines
    154-166): an empty destination name is first defaulted to the uploaded
    file's basename, and the (possibly defaulted) name is then joined under
    the destination path when that is non-empty. -/
def objectName (file : String) (dest : Destination) : String :=
  let name := if dest.Name = "" then pathBase file else dest.Name
  if dest.Path ≠ "" then pathJoin dest.Path name else name

/-- A concrete continuous-watch spec used by the witnesses: a non-recursive
    directory watch with all three event kinds enabled. -/
def pEx : fsPath :=
  { DeleteOnSuccess := false, Watch := true, Recursive := false, Path := "/data",
    Events := ⟨true, true, true⟩, Destination := ⟨"", "/data", ""⟩ }

/-- A concrete one-shot (non-watch) spec carrying both delete-on-success and
    a Remove mask bit, as handed to validate. -/
def pDelRem : fsPath :=
  { DeleteOnSuccess := true, Watch := false, Recursive := false, Path := "/backup",
    Events := ⟨false, false, true⟩, Destination := ⟨"", "", ""⟩ }

/-- A concrete spec with delete-on-success for the callUpload witness. -/
def pDel : fsPath :=
  { DeleteOnSuccess := true, Watch := true, Recursive := false, Path := "/data",
    Events := ⟨true, true, false⟩, Destination := ⟨"", "/data", ""⟩ }

/-- A concrete modelled subtree: root contains directory a, which contains a
    readable directory x and an unreadable directory y. -/
def exTree : Entry :=
  .dir "root" true [.dir "a" true [.dir "x" true [], .dir "y" false []]]

/-- The watcher state after one Write event for /data/a.txt at time 0 from
    the initial state: a single armed upload timer. -/
def sOneTimer : WState :=
  loopStep pEx 2 false 0 ⟨"/data/a.txt", false, true, false⟩ (initState "/data")

/-! ## Theorems -/

/-- Processing a burst tail: while the upload timer for f is armed with the
    previous event's deadline, each further Write event within the wait
    window resets that same timer to its own time plus wait, firing nothing
    and creating nothing. -/
theorem runEvents_burst (p : fsPath) (wait : Nat) (f : String)
    (hw : p.Events.Write = true) (ts : List Nat) :
    ∀ (prev : Nat) (d : List (Nat × ActionKind × String)) (r : List String) (c : Bool),
      List.Chain' (fun a b => a ≤ b ∧ b < a + wait) (prev :: ts) →
      runEvents p wait
        { timers := [("upload-" ++ f, ⟨prev + wait, ActionKind.upload, f⟩)],
          dispatched := d, registered := r, cancelled := c }
        (ts.map (writeArrival f))
      = { timers := [("upload-" ++ f, ⟨ts.getLastD prev + wait, ActionKind.upload, f⟩)],
          dispatched := d, registered := r, cancelled := c } := by
  induction ts with
  | nil => intro prev d r c _; rfl
  | cons t rest ih =>
    intro prev d r c hch
    rw [List.chain'_cons] at hch
    obtain ⟨⟨hle, hlt⟩, hch'⟩ := hch
    rw [List.map_cons, runEvents, List.getLastD_cons]
    have hstep : loopStep p wait (writeArrival f t).isDir (writeArrival f t).time
        (writeArrival f t).event
        (fireDue (writeArrival f t).time
          { timers := [("upload-" ++ f, ⟨prev + wait, ActionKind.upload, f⟩)],
            dispatched := d, registered := r, cancelled := c })
        = { timers := [("upload-" ++ f, ⟨t + wait, ActionKind.upload, f⟩)],
            dispatched := d, registered := r, cancelled := c } := by
      simp [writeArrival, fireDue, loopStep, setTimer, timerSelect, lookupTimer,
        resetTimer, hw, hlt, Nat.not_le.mpr hlt]
    rw [hstep]
    exact ih t d r c hch'

/-- C1: for every sequence of one or more Write events on the same watched
    path, each arriving within debounceWait of the previous one and with
    Write in the spec's event mask, exactly one upload action is dispatched
    for that path, and it fires debounceWait after the last event of the
    burst: each later event resets the pending timer rather than firing or
    duplicating it. -/
theorem write_burst_single_upload (p : fsPath) (wait : Nat) (f root : String)
    (t0 : Nat) (rest : List Nat)
    (hch : List.Chain' (fun a b => a ≤ b ∧ b < a + wait) (t0 :: rest))
    (hw : p.Events.Write = true) (T : Nat)
    (hT : rest.getLastD t0 + wait ≤ T) :
    (fireDue T (runEvents p wait (initState root)
        ((t0 :: rest).map (writeArrival f)))).dispatched
      = [(rest.getLastD t0 + wait, ActionKind.upload, f)] := by
  rw [List.map_cons, runEvents]
  have hstep : loopStep p wait (writeArrival f t0).isDir (writeArrival f t0).time
      (writeArrival f t0).event (fireDue (writeArrival f t0).time (initState root))
      = { timers := [("upload-" ++ f, ⟨t0 + wait, ActionKind.upload, f⟩)],
          dispatched := [], registered := [root], cancelled := false } := by
    simp [writeArrival, initState, fireDue, loopStep, setTimer, timerSelect,
      lookupTimer, hw]
  rw [hstep, runEvents_burst p wait f hw rest t0 [] [root] false hch]
  have hT' : rest.getLast?.getD t0 + wait ≤ T := by rwa [← List.getLastD_eq_getLast?]
  simp [fireDue, hT']

/-- Witness for C1: five writes to /data/a.txt at times 0, 1, 2, 3, 4 with a
    debounce wait of 2 yield exactly one upload, fired at time 6. -/
theorem write_burst_single_upload_witness :
    (fireDue 10 (runEvents pEx 2 (initState "/data")
        (([0, 1, 2, 3, 4] : List Nat).map (writeArrival "/data/a.txt")))).dispatched
      = [(6, ActionKind.upload, "/data/a.txt")] :=
  write_burst_single_upload pEx 2 "/data/a.txt" "/data" 0 [1, 2, 3, 4]
    (by simp [List.chain'_cons]) rfl 10 (by decide)

/-- A key is absent from the timers map iff lookup misses. -/
theorem lookupTimer_eq_none (k : String) (l : List (String × PendingTimer)) :
    lookupTimer k l = none ↔ k ∉ l.map Prod.fst := by
  induction l with
  | nil => simp [lookupTimer]
  | cons kt rest ih =>
    obtain ⟨k', t⟩ := kt
    simp only [lookupTimer, List.map_cons, List.mem_cons]
    split
    · next hk => simp [hk]
    · next hk =>
      simp only [ih]
      constructor
      · intro h hmem
        rcases hmem with h1 | h2
        · exact hk h1.symm
        · exact h h2
      · intro h
        exact fun hm => h (Or.inr hm)

/-- Resetting a timer's deadline changes no key of the map. -/
theorem keys_resetTimer (k : String) (d : Nat) (l : List (String × PendingTimer)) :
    (resetTimer k d l).map Prod.fst = l.map Prod.fst := by
  induction l with
  | nil => rfl
  | cons kt rest ih =>
    obtain ⟨k', t⟩ := kt
    by_cases hk : k' = k <;> simp [resetTimer, hk, ih]

/-- After a reset, lookup returns the old entry with the new deadline. -/
theorem lookupTimer_resetTimer (k : String) (d : Nat)
    (l : List (String × PendingTimer)) :
    lookupTimer k (resetTimer k d l)
      = (lookupTimer k l).map (fun t => { t with deadline := d }) := by
  induction l with
  | nil => rfl
  | cons kt rest ih =>
    obtain ⟨k', t⟩ := kt
    by_cases hk : k' = k <;> simp [resetTimer, lookupTimer, hk, ih]

/-- Erasure only removes entries. -/
theorem eraseTimer_sublist (k : String) (l : List (String × PendingTimer)) :
    (eraseTimer k l).Sublist l := by
  induction l with
  | nil => exact List.Sublist.refl []
  | cons kt rest ih =>
    obtain ⟨k', t⟩ := kt
    by_cases hk : k' = k
    · simpa [eraseTimer, hk] using ih.cons (k', t)
    · simpa [eraseTimer, hk] using ih.cons₂ (k', t)

/-- After erasing a key, lookup for it misses. -/
theorem lookupTimer_eraseTimer (k : String) (l : List (String × PendingTimer)) :
    lookupTimer k (eraseTimer k l) = none := by
  induction l with
  | nil => rfl
  | cons kt rest ih =>
    obtain ⟨k', t⟩ := kt
    by_cases hk : k' = k <;> simp [eraseTimer, lookupTimer, hk, ih]

/-- setTimer preserves distinctness of the timers map's keys: it appends a
    key only after lookup missed it. -/
theorem nodup_setTimer (wait now : Nat) (e : Event) (s : WState)
    (h : (timerKeys s).Nodup) : (timerKeys (setTimer wait now e s)).Nodup := by
  unfold setTimer timerKeys
  split
  · exact h
  · next kind id heq =>
    split
    · next hmiss =>
      simp only [List.map_append, List.map_cons, List.map_nil]
      rw [List.nodup_append]
      refine ⟨h, List.nodup_singleton id, ?_⟩
      intro a ha hb
      rcases List.mem_singleton.mp hb with rfl
      exact (lookupTimer_eq_none a s.timers).mp hmiss ha
    · next hhit => simpa [keys_resetTimer] using h

/-- A firing callback preserves distinctness of the keys. -/
theorem nodup_fireTimer (id : String) (s : WState)
    (h : (timerKeys s).Nodup) : (timerKeys (fireTimer id s)).Nodup := by
  unfold fireTimer timerKeys
  split
  · exact h
  · exact h.sublist ((eraseTimer_sublist id s.timers).map Prod.fst)

/-- checkWatcher never touches the timers map. -/
theorem timerKeys_checkWatcher (s : WState) :
    timerKeys (checkWatcher s) = timerKeys s := by
  unfold checkWatcher; split <;> rfl

/-- Handling one delivered event preserves distinctness of the keys. -/
theorem nodup_loopStep (p : fsPath) (wait : Nat) (isDir : Bool) (now : Nat)
    (e : Event) (s : WState) (h : (timerKeys s).Nodup) :
    (timerKeys (loopStep p wait isDir now e s)).Nodup := by
  unfold loopStep addDir
  split
  · split
    · exact h
    · split
      · exact nodup_setTimer wait now e s h
      · exact h
  · split
    · split
      · exact nodup_setTimer wait now e s h
      · exact h
    · split
      · rw [timerKeys_checkWatcher]
        split
        · exact nodup_setTimer wait now e s h
        · exact h
      · exact h

/-- Every reachable watcher state has pairwise-distinct timer keys. -/
theorem reachable_timerKeys_nodup (p : fsPath) (wait : Nat) (s : WState)
    (h : Reachable p wait s) : (timerKeys s).Nodup := by
  induction h with
  | init root => simp [initState, timerKeys]
  | step s s' _ hstep ih =>
    cases hstep with
    | event isDir now e s => exact nodup_loopStep p wait isDir now e s ih
    | fire id s => exact nodup_fireTimer id s ih

/-- C2: in every reachable state of a watcher's debounce table, at most one
    live timer exists per action key (the key list has no duplicates);
    setTimer on an event whose key is already present only resets that
    entry's deadline — the keys are unchanged, so no second timer is inserted
    — and when a timer's callback fires, the bound action is dispatched and
    the entry is removed from the table, after which lookup for it misses. -/
theorem debounce_table_single_live_timer (p : fsPath) (wait : Nat) (s : WState)
    (h : Reachable p wait s) :
    (timerKeys s).Nodup
    ∧ (∀ (now : Nat) (e : Event) (kind : ActionKind) (id : String),
        timerSelect e = some (kind, id) →
        lookupTimer id s.timers ≠ none →
        timerKeys (setTimer wait now e s) = timerKeys s
        ∧ lookupTimer id (setTimer wait now e s).timers
            = (lookupTimer id s.timers).map (fun t => { t with deadline := now + wait }))
    ∧ (∀ (id : String) (t : PendingTimer), lookupTimer id s.timers = some t →
        fireTimer id s
          = { s with dispatched := s.dispatched ++ [(t.deadline, t.kind, t.path)],
                     timers := eraseTimer id s.timers }
          ∧ lookupTimer id (fireTimer id s).timers = none) := by
  refine ⟨reachable_timerKeys_nodup p wait s h, ?_, ?_⟩
  · intro now e kind id hsel hsome
    cases hlk : lookupTimer id s.timers with
    | none => exact absurd hlk hsome
    | some t =>
      constructor
      · simp only [setTimer, hsel, hlk, timerKeys]
        exact keys_resetTimer id (now + wait) s.timers
      · simp only [setTimer, hsel, hlk]
        rw [lookupTimer_resetTimer, hlk]
  · intro id t hlk
    constructor
    · unfold fireTimer; rw [hlk]
    · unfold fireTimer; rw [hlk]; exact lookupTimer_eraseTimer id s.timers

/-- Witness for C2: the state reached after one Write event from the initial
    state satisfies all three conjuncts. -/
theorem debounce_table_single_live_timer_witness :
    (timerKeys sOneTimer).Nodup
    ∧ (∀ (now : Nat) (e : Event) (kind : ActionKind) (id : String),
        timerSelect e = some (kind, id) →
        lookupTimer id sOneTimer.timers ≠ none →
        timerKeys (setTimer 2 now e sOneTimer) = timerKeys sOneTimer
        ∧ lookupTimer id (setTimer 2 now e sOneTimer).timers
            = (lookupTimer id sOneTimer.timers).map
                (fun t => { t with deadline := now + 2 }))
    ∧ (∀ (id : String) (t : PendingTimer), lookupTimer id sOneTimer.timers = some t →
        fireTimer id sOneTimer
          = { sOneTimer with
              dispatched := sOneTimer.dispatched ++ [(t.deadline, t.kind, t.path)],
              timers := eraseTimer id sOneTimer.timers }
          ∧ lookupTimer id (fireTimer id sOneTimer).timers = none) :=
  debounce_table_single_live_timer pEx 2 sOneTimer
    (Reachable.step _ _ (Reachable.init "/data")
      (Step.event false 0 ⟨"/data/a.txt", false, true, false⟩ (initState "/data")))

/-- Counterexample to C3 as stated: an event carrying both Write and Remove,
    with all three kinds in pEx's mask, records only a delete — the timers
    map holds exactly the delete key, the upload key is absent, and letting
    the timer fire dispatches one delete action and no upload. -/
theorem multi_kind_event_cex :
    timerKeys (loopStep pEx 2 false 0 ⟨"/data/a", false, true, true⟩ (initState "/data"))
      = ["delete-/data/a"]
    ∧ "upload-/data/a"
        ∉ timerKeys (loopStep pEx 2 false 0 ⟨"/data/a", false, true, true⟩ (initState "/data"))
    ∧ (fireDue 100 (loopStep pEx 2 false 0 ⟨"/data/a", false, true, true⟩
        (initState "/data"))).dispatched
      = [(2, ActionKind.delete, "/data/a")] := by decide

/-- C3 (amended): the event loop dispatches only the first matching case of
    its switch (Create, then Write, then Remove), and setTimer then selects
    the single action kind by its own order (Create, then Remove, then
    Write); so an event carrying both Write and Remove, with Write in the
    mask, yields exactly one new record — a delete timer for the path — and
    no upload record. -/
theorem multi_kind_event_single_record (p : fsPath) (wait now : Nat) (f : String)
    (s : WState) (hw : p.Events.Write = true)
    (hmiss : lookupTimer ("delete-" ++ f) s.timers = none) :
    (loopStep p wait false now ⟨f, false, true, true⟩ s).timers
      = s.timers ++ [("delete-" ++ f, ⟨now + wait, ActionKind.delete, f⟩)] := by
  simp [loopStep, setTimer, timerSelect, hw, hmiss]

/-- Witness for C3 (amended) at the initial state and path /data/a. -/
theorem multi_kind_event_single_record_witness :
    (loopStep pEx 2 false 0 ⟨"/data/a", false, true, true⟩ (initState "/data")).timers
      = (initState "/data").timers
        ++ [("delete-" ++ "/data/a", ⟨2, ActionKind.delete, "/data/a"⟩)] :=
  multi_kind_event_single_record pEx 2 0 "/data/a" (initState "/data") rfl rfl

/-- setTimer never touches the registered list. -/
theorem registered_setTimer (wait now : Nat) (e : Event) (s : WState) :
    (setTimer wait now e s).registered = s.registered := by
  unfold setTimer
  split
  · rfl
  · split <;> rfl

/-- checkWatcher never touches the registered list. -/
theorem registered_checkWatcher (s : WState) :
    (checkWatcher s).registered = s.registered := by
  unfold checkWatcher; split <;> rfl

/-- Firing timers never touches the registered list. -/
theorem registered_fireDue (now : Nat) (s : WState) :
    (fireDue now s).registered = s.registered := rfl

/-- Handling one event appends to the registered list exactly the event's
    path when it is a directory-creation event, whatever the spec's
    Recursive flag and event mask say. -/
theorem registered_loopStep (p : fsPath) (wait : Nat) (isDir : Bool) (now : Nat)
    (e : Event) (s : WState) :
    (loopStep p wait isDir now e s).registered
      = s.registered ++ (if e.create && isDir then [e.Name] else []) := by
  unfold loopStep addDir
  split_ifs <;> simp_all [registered_setTimer, registered_checkWatcher]

/-- Over a whole trace, the registered list grows by exactly the paths of
    the directory-creation events, in order, for every spec. -/
theorem registered_runEvents (p : fsPath) (wait : Nat) (arrivals : List Arrival) :
    ∀ s : WState, (runEvents p wait s arrivals).registered
      = s.registered
        ++ (arrivals.filter (fun a => a.event.create && a.isDir)).map
            (fun a => a.event.Name) := by
  induction arrivals with
  | nil => intro s; simp [runEvents]
  | cons a rest ih =>
    intro s
    rw [runEvents, ih, registered_loopStep, registered_fireDue, List.filter_cons]
    by_cases h : a.event.create && a.isDir <;> simp [h]

/-- C4 (amended): a PathWatcher for a non-recursive spec initially registers
    only its root with the low-level handle, but the event loop registers
    every directory-creation event's path regardless of the Recursive flag:
    after any trace, the registered set is the root plus exactly the paths of
    the directory-creation events. -/
theorem nonrecursive_watch_registration (p : fsPath) (hrec : p.Recursive = false)
    (fs : Entry) (wait : Nat) (arrivals : List Arrival) :
    initWatchPaths p fs = [p.Path]
    ∧ (runEvents p wait (initState p.Path) arrivals).registered
      = p.Path :: (arrivals.filter (fun a => a.event.create && a.isDir)).map
          (fun a => a.event.Name) := by
  constructor
  · simp [initWatchPaths, hrec]
  · rw [registered_runEvents]
    rfl

/-- Counterexample to C4 as stated: pEx is non-recursive, yet after a Create
    event for the new subdirectory /data/sub (which stats as a directory) the
    watch handle has /data/sub registered — a path other than the root. -/
theorem nonrecursive_watch_registration_cex :
    pEx.Recursive = false
    ∧ "/data/sub" ∈ (runEvents pEx 2 (initState "/data")
        [⟨5, true, ⟨"/data/sub", true, false, false⟩⟩]).registered
    ∧ "/data/sub" ≠ "/data" := by decide

/-- Witness for C4 (amended) on a one-event trace. -/
theorem nonrecursive_watch_registration_witness :
    initWatchPaths pEx exTree = [pEx.Path]
    ∧ (runEvents pEx 2 (initState pEx.Path)
        [⟨5, true, ⟨"/data/sub", true, false, false⟩⟩]).registered
      = pEx.Path :: (([⟨5, true, ⟨"/data/sub", true, false, false⟩⟩] : List Arrival).filter
          (fun a => a.event.create && a.isDir)).map (fun a => a.event.Name) :=
  nonrecursive_watch_registration pEx rfl exTree 2
    [⟨5, true, ⟨"/data/sub", true, false, false⟩⟩]

/-- C5 (evaluating the code at the failing input): when fsnotify.NewWatcher
    fails during Starting for a continuous-watch spec, startNewWatcher does
    cancel the watcher's context, but then stores the nil handle and keeps
    going: operations are still performed on the nil handle (the event-loop
    select on _watcher.Events and every addDir Add call), which in Go panics
    the whole process rather than stopping this PathWatcher alone. -/
theorem newWatcher_failure_uses_nil_handle (p : fsPath) (fs : Entry)
    (hw : p.Watch = true) :
    (startNewWatcher p false fs).map (fun o => o.cancelled && o.panics)
      = some true := by
  simp [startNewWatcher, hw, StartOutcome.panics]

/-- Witness for C5 at the concrete spec pEx. -/
theorem newWatcher_failure_uses_nil_handle_witness :
    (startNewWatcher pEx false exTree).map (fun o => o.cancelled && o.panics)
      = some true :=
  newWatcher_failure_uses_nil_handle pEx exTree rfl

/-- C6: for a spec with delete-on-success, a successful upload always leads
    to a removal attempt, a failed removal leaves the file in place without
    escalating any error, and a successful removal deletes it; when the
    upload fails, no removal is attempted for any spec and the file still
    exists. -/
theorem callUpload_deleteOnSuccess (p : fsPath) (removeOk : Bool)
    (hdos : p.DeleteOnSuccess = true) :
    ((callUpload p true removeOk).removeAttempted = true
      ∧ (callUpload p true removeOk).escalated = false
      ∧ (callUpload p true removeOk).fileExists = !removeOk)
    ∧ (∀ q : fsPath, (callUpload q false removeOk).removeAttempted = false
      ∧ (callUpload q false removeOk).fileExists = true
      ∧ (callUpload q false removeOk).escalated = false) := by
  cases removeOk <;> simp [callUpload, hdos]

/-- Witness for C6 at the concrete delete-on-success spec pDel. -/
theorem callUpload_deleteOnSuccess_witness :
    ((callUpload pDel true true).removeAttempted = true
      ∧ (callUpload pDel true true).escalated = false
      ∧ (callUpload pDel true true).fileExists = !true)
    ∧ (∀ q : fsPath, (callUpload q false true).removeAttempted = false
      ∧ (callUpload q false true).fileExists = true
      ∧ (callUpload q false true).escalated = false) :=
  callUpload_deleteOnSuccess pDel true rfl

/-- The ReadDir loop only ever extends the accumulated directory list. -/
theorem rdlChildren_extends (p : String) (es : List Entry) :
    ∀ (acc l : List String) (oe : Option String),
      rdlChildren p es acc = (some l, oe) → ∃ t, l = acc ++ t := by
  induction es with
  | nil =>
    intro acc l oe h
    rw [rdlChildren] at h
    simp only [Prod.mk.injEq, Option.some.injEq] at h
    exact ⟨[], by simp [h.1]⟩
  | cons c rest ih =>
    intro acc l oe h
    cases c with
    | file n =>
      rw [rdlChildren] at h
      exact ih acc l oe h
    | dir n r cs =>
      rw [rdlChildren] at h
      cases hrec : recursiveDirList (pathJoin p n) (Entry.dir n r cs) with
      | mk dOpt eOpt =>
        rw [hrec] at h
        cases eOpt with
        | some err =>
          simp only [Prod.mk.injEq, Option.some.injEq] at h
          exact ⟨[], by simp [h.1]⟩
        | none =>
          cases dOpt with
          | some d =>
            simp only at h
            obtain ⟨t, ht⟩ := ih (acc ++ d) l oe h
            exact ⟨d ++ t, by rw [ht, List.append_assoc]⟩
          | none =>
            simp only at h
            exact ih acc l oe h

/-- Whenever recursiveDirList returns a list, that list starts with the
    root it was called on. -/
theorem recursiveDirList_head (p : String) (e : Entry) (l : List String)
    (oe : Option String) (h : recursiveDirList p e = (some l, oe)) :
    l.head? = some p := by
  cases e with
  | file n =>
    rw [recursiveDirList] at h
    simp at h
  | dir n r cs =>
    rw [recursiveDirList] at h
    cases r with
    | false => simp at h
    | true =>
      simp only [if_true] at h
      obtain ⟨t, ht⟩ := rdlChildren_extends p cs [p] l oe h
      simp [ht]

/-- A failing child directory stops the ReadDir loop with the directories
    accumulated so far plus the child's error; the child's own partial list
    is not consulted. -/
theorem rdlChildren_child_error (p n : String) (r : Bool) (cs rest : List Entry)
    (acc : List String) (err : String)
    (h : (recursiveDirList (pathJoin p n) (Entry.dir n r cs)).2 = some err) :
    rdlChildren p (Entry.dir n r cs :: rest) acc = (some acc, some err) := by
  rw [rdlChildren]
  cases hrec : recursiveDirList (pathJoin p n) (Entry.dir n r cs) with
  | mk dOpt eOpt =>
    rw [hrec] at h
    simp only at h
    subst h
    cases dOpt <;> simp

/-- C7 (amended): the enumerator returns a sequence of directory paths with
    the root first whenever it returns a list at all; it fails with a
    filesystem error and a nil list when the root is not a directory or is
    unreadable; and when enumeration of a child branch fails partway, the
    call returns the directories accumulated at its own level before the
    failing branch together with the error — the partial discoveries inside
    the failing branch are discarded, not returned. -/
theorem recursiveDirList_contract (p : String) :
    (∀ n, recursiveDirList p (Entry.file n)
        = (none, some ("not a directory: " ++ p)))
    ∧ (∀ n cs, recursiveDirList p (Entry.dir n false cs)
        = (none, some ("unable to process dir " ++ p)))
    ∧ (∀ (e : Entry) (l : List String) (oe : Option String),
        recursiveDirList p e = (some l, oe) → l.head? = some p)
    ∧ (∀ (n : String) (r : Bool) (cs rest : List Entry) (acc : List String)
        (err : String),
        (recursiveDirList (pathJoin p n) (Entry.dir n r cs)).2 = some err →
        rdlChildren p (Entry.dir n r cs :: rest) acc = (some acc, some err)) := by
  refine ⟨fun n => by rw [recursiveDirList], fun n cs => by rw [recursiveDirList]; rfl,
    fun e l oe h => recursiveDirList_head p e l oe h,
    fun n r cs rest acc err h => rdlChildren_child_error p n r cs rest acc err h⟩

/-- Counterexample to C7 as stated: enumerating root discovers root/a and
    root/a/x (they appear in the failing sub-enumeration's partial result)
    before failing on the unreadable root/a/y, yet the overall call returns
    only [root] with the error — the discovered descendants are discarded,
    so the enumerator does not return all directories discovered up to the
    failure. -/
theorem recursiveDirList_discards_cex :
    recursiveDirList "root" exTree
      = (some ["root"], some "unable to process dir root/a/y")
    ∧ recursiveDirList "root/a"
        (Entry.dir "a" true [Entry.dir "x" true [], Entry.dir "y" false []])
      = (some ["root/a", "root/a/x"], some "unable to process dir root/a/y")
    ∧ "root/a" ∉ (["root"] : List String) :=
  ⟨rfl, rfl, by decide⟩

/-- Witness for C7 (amended): each conjunct of the contract applied at a
    concrete tree, with every hypothesis discharged by evaluation. -/
theorem recursiveDirList_contract_witness :
    recursiveDirList "root" (Entry.file "f")
      = (none, some ("not a directory: " ++ "root"))
    ∧ recursiveDirList "root" (Entry.dir "d" false [])
      = (none, some ("unable to process dir " ++ "root"))
    ∧ (["root"] : List String).head? = some "root"
    ∧ rdlChildren "root"
        [Entry.dir "a" true [Entry.dir "x" true [], Entry.dir "y" false []]] ["root"]
      = (some ["root"], some "unable to process dir root/a/y") :=
  ⟨(recursiveDirList_contract "root").1 "f",
   (recursiveDirList_contract "root").2.1 "d" [],
   (recursiveDirList_contract "root").2.2.1 exTree ["root"]
     (some "unable to process dir root/a/y") rfl,
   (recursiveDirList_contract "root").2.2.2 "a" true
     [Entry.dir "x" true [], Entry.dir "y" false []] [] ["root"]
     "unable to process dir root/a/y" rfl⟩

/-- A path that validatePath accepts never carries both delete-on-success
    and a Remove mask bit: watched paths with both are rejected by the final
    check, unwatched paths have both cleared by normalization first. -/
theorem validatePath_ok_not_both (dirOk : String → Bool) (p q : fsPath)
    (h : validatePath dirOk p = Except.ok q) :
    ¬(q.DeleteOnSuccess = true ∧ q.Events.Remove = true) := by
  unfold validatePath at h
  split at h
  · simp at h
  · split at h
    · simp at h
    · next hcond =>
      simp only [Except.ok.injEq] at h
      subst h
      exact fun hc => hcond (by simp [hc.1, hc.2])

/-- A watched path that validatePath accepts has a non-empty event mask. -/
theorem validatePath_ok_watch_events (dirOk : String → Bool) (p q : fsPath)
    (h : validatePath dirOk p = Except.ok q) (hw : q.Watch = true) :
    (q.Events.Create || q.Events.Write || q.Events.Remove) = true := by
  unfold validatePath at h
  split at h
  · simp at h
  · next q' heq =>
    split at h
    · simp at h
    · simp only [Except.ok.injEq] at h
      subst h
      unfold validatePathChecks at heq
      split at heq
      · split at heq
        · simp at heq
        · split at heq
          · simp at heq
          · split at heq
            · simp at heq
            · next hmask =>
              simp only [Except.ok.injEq] at heq
              subst heq
              cases hb : (p.Events.Create || p.Events.Write || p.Events.Remove) with
              | true => rfl
              | false => exact absurd (by simp [hb]) hmask
      · next hnw =>
        simp only [Except.ok.injEq] at heq
        subst heq
        simp only at hw
        exact absurd hw hnw

/-- A watched spec carrying both delete-on-success and a Remove mask bit is
    rejected by validatePath, whichever of its checks fires first. -/
theorem validatePath_watch_both_error (dirOk : String → Bool) (p : fsPath)
    (hw : p.Watch = true) (hd : p.DeleteOnSuccess = true)
    (hr : p.Events.Remove = true) :
    ∃ e, validatePath dirOk p = Except.error e := by
  cases hdir : dirOk p.Path with
  | false =>
    by_cases hrec : p.Recursive = true
    · exact ⟨"cannot recursively watch non-directory file: " ++ p.Path,
        by simp [validatePath, validatePathChecks, hw, hdir, hrec]⟩
    · exact ⟨"cannot use delete-on-success and watch on non-directory file: " ++ p.Path,
        by simp [validatePath, validatePathChecks, hw, hdir, hrec, hd]⟩
  | true =>
    exact ⟨"cannot watch remove/delete events with delete-on-success: " ++ p.Path,
      by simp [validatePath, validatePathChecks, hw, hdir, hd, hr]⟩

/-- A watched spec with an empty event mask is rejected by validatePath,
    whichever of its checks fires first. -/
theorem validatePath_watch_noevents_error (dirOk : String → Bool) (p : fsPath)
    (hw : p.Watch = true) (hc : p.Events.Create = false)
    (hwr : p.Events.Write = false) (hr : p.Events.Remove = false) :
    ∃ e, validatePath dirOk p = Except.error e := by
  cases hdir : dirOk p.Path with
  | false =>
    by_cases hrec : p.Recursive = true
    · exact ⟨"cannot recursively watch non-directory file: " ++ p.Path,
        by simp [validatePath, validatePathChecks, hw, hdir, hrec]⟩
    · by_cases hdos : p.DeleteOnSuccess = true
      · exact ⟨"cannot use delete-on-success and watch on non-directory file: " ++ p.Path,
          by simp [validatePath, validatePathChecks, hw, hdir, hrec, hdos]⟩
      · exact ⟨"cannot set watch without any events: " ++ p.Path,
          by simp [validatePath, validatePathChecks, hw, hdir, hrec, hdos, hc, hwr, hr]⟩
  | true =>
    exact ⟨"cannot set watch without any events: " ++ p.Path,
      by simp [validatePath, validatePathChecks, hw, hdir, hc, hwr, hr]⟩

/-- Every element of an accepted configuration came through validatePath, so
    a property of every validatePath-accepted path holds of all of them. -/
theorem validate_ok_mem (dirOk : String → Bool) (P : fsPath → Prop)
    (hP : ∀ p q, validatePath dirOk p = Except.ok q → P q) :
    ∀ (ps : List fsPath) (out : List fsPath),
      validate dirOk ps = Except.ok out → ∀ q ∈ out, P q := by
  intro ps
  induction ps with
  | nil =>
    intro out h q hq
    rw [validate] at h
    simp only [Except.ok.injEq] at h
    subst h
    cases hq
  | cons p0 rest ih =>
    intro out h q hq
    rw [validate] at h
    cases hv : validatePath dirOk p0 with
    | error e => rw [hv] at h; simp at h
    | ok q0 =>
      rw [hv] at h
      cases hrest : validate dirOk rest with
      | error e => rw [hrest] at h; simp at h
      | ok qs =>
        rw [hrest] at h
        simp only [Except.ok.injEq] at h
        subst h
        rcases List.mem_cons.mp hq with rfl | hq'
        · exact hP p0 q hv
        · exact ih qs hrest q hq'

/-- If some listed path fails validatePath, the whole validate call fails. -/
theorem validate_mem_error (dirOk : String → Bool) (p : fsPath)
    (herr : ∃ e, validatePath dirOk p = Except.error e) :
    ∀ ps : List fsPath, p ∈ ps → ∃ e, validate dirOk ps = Except.error e := by
  intro ps
  induction ps with
  | nil => intro hp; cases hp
  | cons p0 rest ih =>
    intro hp
    rcases List.mem_cons.mp hp with rfl | hmem
    · obtain ⟨e, he⟩ := herr
      exact ⟨e, by rw [validate, he]⟩
    · cases hv : validatePath dirOk p0 with
      | error e0 => exact ⟨e0, by rw [validate, hv]⟩
      | ok q0 =>
        obtain ⟨e, he⟩ := ih hmem
        exact ⟨e, by rw [validate, hv, he]⟩

/-- C8 (amended): an accepted configuration never contains a path spec with
    both delete-on-success and Remove in its event mask, and any watched
    input spec carrying both is rejected with an error; an unwatched input
    spec carrying both, however, is not rejected — validation first
    normalizes it, clearing both flags, and then accepts it. -/
theorem validate_deleteOnSuccess_remove (dirOk : String → Bool) (ps : List fsPath) :
    (∀ out, validate dirOk ps = Except.ok out →
      ∀ q ∈ out, ¬(q.DeleteOnSuccess = true ∧ q.Events.Remove = true))
    ∧ (∀ p ∈ ps, p.Watch = true → p.DeleteOnSuccess = true →
        p.Events.Remove = true → ∃ e, validate dirOk ps = Except.error e) := by
  constructor
  · intro out h q hq
    exact validate_ok_mem dirOk _ (validatePath_ok_not_both dirOk) ps out h q hq
  · intro p hp hw hd hr
    exact validate_mem_error dirOk p (validatePath_watch_both_error dirOk p hw hd hr) ps hp

/-- Counterexample to C8 as stated: the unwatched spec pDelRem has both
    deleteOnSuccess and Remove in its mask, yet validate accepts the
    configuration (returning it normalized) instead of rejecting it. -/
theorem validate_deleteOnSuccess_remove_cex :
    pDelRem.DeleteOnSuccess = true ∧ pDelRem.Events.Remove = true
    ∧ validate (fun _ => true) [pDelRem]
      = Except.ok
          [{ pDelRem with DeleteOnSuccess := false, Events := ⟨false, false, false⟩ }] :=
  ⟨rfl, rfl, rfl⟩

/-- Witness for C8 (amended) on a concrete two-spec configuration. -/
theorem validate_deleteOnSuccess_remove_witness :
    (∀ out, validate (fun _ => true) [pDelRem, pEx] = Except.ok out →
      ∀ q ∈ out, ¬(q.DeleteOnSuccess = true ∧ q.Events.Remove = true))
    ∧ (∀ p ∈ [pDelRem, pEx], p.Watch = true → p.DeleteOnSuccess = true →
        p.Events.Remove = true →
        ∃ e, validate (fun _ => true) [pDelRem, pEx] = Except.error e) :=
  validate_deleteOnSuccess_remove (fun _ => true) [pDelRem, pEx]

/-- C10: an accepted configuration's watched specs all have at least one
    event kind enabled, and any input configuration containing a watched spec
    with an empty event mask is rejected with an error. -/
theorem validate_watch_requires_events (dirOk : String → Bool) (ps : List fsPath) :
    (∀ out, validate dirOk ps = Except.ok out →
      ∀ q ∈ out, q.Watch = true →
        (q.Events.Create || q.Events.Write || q.Events.Remove) = true)
    ∧ (∀ p ∈ ps, p.Watch = true → p.Events.Create = false →
        p.Events.Write = false → p.Events.Remove = false →
        ∃ e, validate dirOk ps = Except.error e) := by
  constructor
  · intro out h q hq
    exact validate_ok_mem dirOk
      (fun q => q.Watch = true →
        (q.Events.Create || q.Events.Write || q.Events.Remove) = true)
      (fun p q hpq => validatePath_ok_watch_events dirOk p q hpq) ps out h q hq
  · intro p hp hw hc hwr hr
    exact validate_mem_error dirOk p
      (validatePath_watch_noevents_error dirOk p hw hc hwr hr) ps hp

/-- Witness for C10 on a concrete two-spec configuration. -/
theorem validate_watch_requires_events_witness :
    (∀ out, validate (fun _ => true) [pEx, pDelRem] = Except.ok out →
      ∀ q ∈ out, q.Watch = true →
        (q.Events.Create || q.Events.Write || q.Events.Remove) = true)
    ∧ (∀ p ∈ [pEx, pDelRem], p.Watch = true → p.Events.Create = false →
        p.Events.Write = false → p.Events.Remove = false →
        ∃ e, validate (fun _ => true) [pEx, pDelRem] = Except.error e) :=
  validate_watch_requires_events (fun _ => true) [pEx, pDelRem]

/-- Counterexample to C9 as stated: destinations with an empty name occur
    (a directory spec's destination has Name = ""), and for them the object
    key is the uploaded file's basename, not the empty destination name. -/
theorem objectName_empty_name_cex :
    objectName "/data/x.txt" ⟨"", "", ""⟩ = "x.txt"
    ∧ ("x.txt" : String) ≠ "" ∧ (⟨"", "", ""⟩ : Destination).Name = "" :=
  ⟨rfl, by decide, rfl⟩

/-- C9 (amended): the object key is the join of destination.path and the
    effective name when destination.path is non-empty, and the effective
    name alone when it is empty — where the effective name is
    destination.name when non-empty, and otherwise the basename of the
    uploaded file (the client defaults an empty destination name). -/
theorem objectName_key_format (file : String) (dest : Destination) :
    (dest.Name ≠ "" → dest.Path ≠ "" →
      objectName file dest = pathJoin dest.Path dest.Name)
    ∧ (dest.Name ≠ "" → dest.Path = "" → objectName file dest = dest.Name)
    ∧ (dest.Name = "" → dest.Path ≠ "" →
      objectName file dest = pathJoin dest.Path (pathBase file))
    ∧ (dest.Name = "" → dest.Path = "" → objectName file dest = pathBase file) := by
  refine ⟨?_, ?_, ?_, ?_⟩ <;> intro h1 h2 <;> simp [objectName, h1, h2]

/-- Witness for C9 (amended): all four cases at concrete destinations. -/
theorem objectName_key_format_witness :
    objectName "/data/x.txt" ⟨"n", "p", ""⟩ = pathJoin "p" "n"
    ∧ objectName "/data/x.txt" ⟨"n", "", ""⟩ = "n"
    ∧ objectName "/data/x.txt" ⟨"", "p", ""⟩ = pathJoin "p" (pathBase "/data/x.txt")
    ∧ objectName "/data/x.txt" ⟨"", "", ""⟩ = pathBase "/data/x.txt" :=
  ⟨(objectName_key_format "/data/x.txt" ⟨"n", "p", ""⟩).1 (by decide) (by decide),
   (objectName_key_format "/data/x.txt" ⟨"n", "", ""⟩).2.1 (by decide) rfl,
   (objectName_key_format "/data/x.txt" ⟨"", "p", ""⟩).2.2.1 rfl (by decide),
   (objectName_key_format "/data/x.txt" ⟨"", "", ""⟩).2.2.2 rfl rfl⟩

end MBS
